import Mathlib

/-
  Shallow embedding of src/a11ychecker.mjs (BL-Labs/labs-a11y-testing).

  JavaScript strings are Lean String / List Char; JS numbers that carry
  accessibility scores are Lean rationals; a JS value that may be absent
  (missing object key, undefined) is an Option; a JS function that can
  throw is Except String (the String is the thrown error message).
-/

/-- listStartsWith pat l is true when pat is an initial segment of l. -/
def listStartsWith : List Char → List Char → Bool
  | [], _ => true
  | _ :: _, [] => false
  | a :: as, b :: bs => a == b && listStartsWith as bs

/-- listContainsSub hay needle is true when needle occurs contiguously in hay
(the semantics of JavaScript String.includes). -/
def listContainsSub (hay needle : List Char) : Bool :=
  match hay with
  | [] => needle.isEmpty
  | _ :: t => listStartsWith needle hay || listContainsSub t needle

/-- JavaScript url.includes(sub). -/
def jsIncludes (s sub : String) : Bool :=
  listContainsSub s.data sub.data

/-- Replace the first occurrence of pat in the character list by rep; the
list is returned unchanged when pat does not occur.  This is the semantics
of JavaScript String.replace with a plain string pattern, which replaces
only the FIRST occurrence. -/
def replaceFirstAux (pat rep : List Char) : List Char → List Char
  | [] => []
  | c :: rest =>
    if listStartsWith pat (c :: rest) then rep ++ (c :: rest).drop pat.length
    else c :: replaceFirstAux pat rep rest

/-- JavaScript s.replace(pat, rep) with a string pattern: first occurrence only. -/
def jsReplaceFirst (s pat rep : String) : String :=
  String.mk (replaceFirstAux pat.data rep.data s.data)

/-- The components of a JavaScript Date as read by the source: getFullYear,
getMonth (0-based), getDate, getHours, getMinutes, getSeconds. -/
structure DateParts where
  year : Nat
  month : Nat
  day : Nat
  hours : Nat
  minutes : Nat
  seconds : Nat
deriving DecidableEq

/-- padZero from getDateBasedDirName: template-string of the number padded
with padStart(2, "0"). -/
def padZero (n : Nat) : String :=
  let s := toString n
  if s.length < 2 then "0" ++ s else s

/-- getDateBasedDirName: directory name YYYY-MM-DDTHH-MM-SS built from a Date. -/
def getDateBasedDirName (d : DateParts) : String :=
  toString d.year ++ "-" ++ padZero (d.month + 1) ++ "-" ++ padZero d.day ++
  "T" ++ padZero d.hours ++ "-" ++ padZero d.minutes ++ "-" ++ padZero d.seconds

/-- Split a character list at every occurrence of the separator character
(the semantics of JavaScript String.split with a one-character string). -/
def splitOnCharAux (c : Char) : List Char → List Char → List (List Char)
  | [], acc => [acc.reverse]
  | x :: rest, acc =>
    if x == c then acc.reverse :: splitOnCharAux c rest []
    else splitOnCharAux c rest (x :: acc)

/-- JavaScript s.split(sep) for a one-character separator. -/
def jsSplitChar (s : String) (c : Char) : List String :=
  (splitOnCharAux c s.data []).map String.mk

/-- getReportTimeFromDirectoryPath: splits the directory basename on "T" and
returns parts[0] + "T" + parts[1].replace("-", ":") + "Z".  The argument is
the basename of the run directory (path.basename is filesystem glue).  Run
directory basenames contain exactly one "T", so parts has two entries. -/
def getReportTimeFromDirectoryPath (basename : String) : String :=
  let parts := jsSplitChar basename 'T'
  parts.headD "" ++ "T" ++ jsReplaceFirst ((parts.get? 1).getD "") "-" ":" ++ "Z"

/-- One affected DOM node inside an audit detail item (selector, snippet,
explanation are read as strings by outputAuditItem). -/
structure FItemNode where
  selector : String
  snippet : String
  explanation : String
deriving DecidableEq

/-- One entry of details.items.  Its node key may be absent (undefined). -/
structure FItem where
  node : Option FItemNode
deriving DecidableEq

/-- The details object of an audit; its items key may be absent. -/
structure Details where
  items : Option (List FItem)
deriving DecidableEq

/-- One value of the raw audits map: the fields the source reads.  score is
None when the key is absent or the value is not a number (undefined / null:
in JavaScript neither is loosely equal to 0). -/
structure AuditData where
  scoreDisplayMode : String
  score : Option ℚ
  id : String
  title : String
  description : String
  details : Option Details
deriving DecidableEq

/-- data.categories.accessibility: score is None when the key is absent. -/
structure ScoreElement where
  score : Option ℚ
deriving DecidableEq

/-- data.categories: accessibility is None when the key is absent. -/
structure Categories where
  accessibility : Option ScoreElement
deriving DecidableEq

/-- A raw Lighthouse result as read by extractPageData.  requestedUrlPath is
the pathname of new URL(data.requestedUrl) (URL parsing is boundary glue).
audits is the audits map in key order of for..in. -/
structure RawAuditResult where
  requestedUrlPath : String
  categories : Option Categories
  audits : List (String × AuditData)
deriving DecidableEq

/-- The normalized per-page record built by extractPageData. -/
structure PageRecord where
  path : String
  score : ℚ
  audits : List (String × AuditData)
deriving DecidableEq

/-- JavaScript auditData.score == 0 (loose equality): true only when score
is present and numerically zero; undefined == 0 and null == 0 are false. -/
def jsEqZero : Option ℚ → Bool
  | some q => q == 0
  | none => false

/-- isIncludableInReport, clause for clause:
scoreDisplayMode != "notApplicable"
  AND (scoreDisplayMode == "binary" AND score == 0)
  AND scoreDisplayMode != "informative"
  AND scoreDisplayMode != "manual". -/
def isIncludableInReport (a : AuditData) : Bool :=
  (!(a.scoreDisplayMode == "notApplicable"))
  && ((a.scoreDisplayMode == "binary") && jsEqZero a.score)
  && (!(a.scoreDisplayMode == "informative"))
  && (!(a.scoreDisplayMode == "manual"))

/-- extractPageData.  The else branch of the categories/accessibility check
executes a template string that reads the identifier filename, which is not
in scope in this function (it is a local of generateReportData); reading an
undeclared identifier throws a ReferenceError, so that branch throws.  On
the normal path the record keeps score 0 when the score key is absent and
filters the audits map through isIncludableInReport. -/
def extractPageData (data : RawAuditResult) : Except String PageRecord :=
  match data.categories with
  | some cats =>
    match cats.accessibility with
    | some scoreElement =>
      let score : ℚ := match scoreElement.score with
        | some q => q
        | none => 0
      .ok { path := data.requestedUrlPath
            score := score
            audits := data.audits.filter (fun kv => isIncludableInReport kv.2) }
    | none => .error "ReferenceError: filename is not defined"
  | none => .error "ReferenceError: filename is not defined"

/-- One file read inside the generateReportData loop: None stands for a file
whose JSON.parse throws; otherwise extractPageData runs on the parsed value
(and may itself throw).  Both throws land in the same catch. -/
def parseFile : Option RawAuditResult → Except String PageRecord
  | none => .error "SyntaxError: JSON parse failed"
  | some raw => extractPageData raw

/-- The page records that survive the try of the generateReportData loop. -/
def parsedRecords (files : List (Option RawAuditResult)) : List PageRecord :=
  files.filterMap (fun f => (parseFile f).toOption)

/-- JavaScript obj[k] = v on an object kept as an insertion-ordered list of
key/value pairs: an existing key keeps its position and gets the new value,
a new key is appended. -/
def jsObjSet (m : List (String × α)) (k : String) (v : α) : List (String × α) :=
  if m.any (fun kv => kv.1 == k) then
    m.map (fun kv => if kv.1 == k then (k, v) else kv)
  else m ++ [(k, v)]

/-- The body of the generateReportData file loop: threads count, totalScore,
page_scores and page_audits through the files; a file whose parse or
extraction throws is skipped by the catch. -/
def reportLoop :
    List (Option RawAuditResult) → Nat → ℚ →
    List (String × ℚ) → List (String × List (String × AuditData)) →
    Nat × ℚ × List (String × ℚ) × List (String × List (String × AuditData))
  | [], count, total, scores, audits => (count, total, scores, audits)
  | f :: rest, count, total, scores, audits =>
    match parseFile f with
    | .ok pd =>
      reportLoop rest (count + 1) (total + pd.score)
        (jsObjSet scores pd.path pd.score) (jsObjSet audits pd.path pd.audits)
    | .error _ => reportLoop rest count total scores audits

/-- The report data object assembled by generateReportData. -/
structure ReportData where
  host : String
  page_scores : List (String × ℚ)
  page_audits : List (String × List (String × AuditData))
  site_average : ℚ
  report_datetime : String
deriving DecidableEq

/-- generateReportData: host comes from the site URL (URL parsing is
boundary glue, so the host string is a parameter), files are the .json
directory entries in read order, dirBasename the run directory basename.
Returns None when no file yielded a record (count == 0; the
directory-missing early return is filesystem glue outside the model). -/
def generateReportData (host : String) (files : List (Option RawAuditResult))
    (dirBasename : String) : Option ReportData :=
  let r := reportLoop files 0 0 [] []
  if r.1 > 0 then
    some { host := host
           page_scores := r.2.2.1
           page_audits := r.2.2.2
           site_average := r.2.1 / (r.1 : ℚ)
           report_datetime := getReportTimeFromDirectoryPath dirBasename }
  else none

/-- JavaScript url.endsWith(suf). -/
def jsEndsWith (s suf : String) : Bool :=
  listStartsWith suf.data.reverse s.data.reverse

/-- The parse of one fetched sitemap document, as inspected by
processSitemap: a urlset (its loc values in document order), a
sitemapindex (its sitemap loc values), or any other shape, which the
function falls through without output. -/
inductive SitemapDoc where
  | urlset (urls : List String)
  | sitemapindex (sitemaps : List String)
  | other
deriving DecidableEq

/-- The urlset branch of processSitemap: await runLighthouse(reportsDir, url)
for each url in order, with no try around the call, so the first audit that
throws aborts the loop and the exception propagates.  audit is the external
runLighthouse capability; the result is the list of urls audited before any
throw, paired with the thrown message if one was thrown. -/
def runUrlList (audit : String → Except String Unit) :
    List String → List String × Option String
  | [] => ([], none)
  | u :: rest =>
    match audit u with
    | .error e => ([], some e)
    | .ok _ =>
      match runUrlList audit rest with
      | (done, err) => (u :: done, err)

mutual

/-- processSitemap over an abstract web (URL to fetched document; HTTP and
XML parsing are boundary glue).  The source recursion is unbounded and has
no visited set; fuel counts nested processSitemap calls still allowed, and
None means the computation was still recurring when the fuel ran out, i.e.
the source diverges below that depth.  some (.error e) is an exception
propagating out of the urlset audit loop. -/
def processSitemap (web : String → SitemapDoc)
    (audit : String → Except String Unit) :
    Nat → String → Option (Except String (List String))
  | 0, _ => none
  | fuel + 1, url =>
    match web url with
    | .urlset urls =>
      match runUrlList audit urls with
      | (_, some e) => some (.error e)
      | (done, none) => some (.ok done)
    | .sitemapindex maps => processSitemapIndexLoop web audit fuel maps
    | .other => some (.ok [])
  termination_by fuel _ => (fuel, 0)

/-- The sitemapindex branch loop: recurse into every entry whose loc
contains "sitemap" and ends with ".xml"; other entries are skipped. -/
def processSitemapIndexLoop (web : String → SitemapDoc)
    (audit : String → Except String Unit) :
    Nat → List String → Option (Except String (List String))
  | _, [] => some (.ok [])
  | fuel, m :: rest =>
    if jsIncludes m "sitemap" && jsEndsWith m ".xml" then
      match processSitemap web audit fuel m with
      | none => none
      | some (.error e) => some (.error e)
      | some (.ok us) =>
        match processSitemapIndexLoop web audit fuel rest with
        | none => none
        | some (.error e) => some (.error e)
        | some (.ok vs) => some (.ok (us ++ vs))
    else processSitemapIndexLoop web audit fuel rest
  termination_by fuel maps => (fuel, maps.length + 1)

end

/-- makeAnchorFromPageName: pageName.replaceAll("/", ""). -/
def makeAnchorFromPageName (pageName : String) : String :=
  String.mk (pageName.data.filter (fun c => !(c == '/')))

/-- toFixed(2): decimal rendering of the value rounded to two decimal
places (scores are nonnegative here; binary floating-point rounding noise
is not modelled). -/
def jsToFixed2 (x : ℚ) : String :=
  let y : ℚ := x * 100 + 1 / 2
  let n : ℤ := y.num / (y.den : ℤ)
  toString (n / 100) ++ "." ++ (if n % 100 < 10 then "0" else "") ++ toString (n % 100)

/-- formatPercent: (number * 100).toFixed(2) + "%". -/
def formatPercent (q : ℚ) : String :=
  jsToFixed2 (q * 100) ++ "%"

/-- One summary-table row emitted by the outputPageScores loop body. -/
def scoreRowHtml (page : String) (score : ℚ) : String :=
  "<tr><th><a href=\x27#" ++ makeAnchorFromPageName page ++ "\x27>" ++ page ++
  "</a></th><td>" ++ formatPercent score ++ "</td></tr>"

/-- outputPageScores: one row per page, skipping (continue) every page whose
score == 1, concatenated in object key order. -/
def outputPageScores : List (String × ℚ) → String
  | [] => ""
  | (page, score) :: rest =>
    if score == 1 then outputPageScores rest
    else scoreRowHtml page score ++ outputPageScores rest

/-- The whitespace class of the regex \s (the characters relevant here). -/
def isJsSpace (c : Char) : Bool :=
  c == ' ' || c == '\t' || c == '\n' || c == '\r'

/-- Split a list into its maximal initial run satisfying p and the rest. -/
def takeWhileRun (p : Char → Bool) : List Char → List Char × List Char
  | [] => ([], [])
  | c :: rest =>
    if p c then
      match takeWhileRun p rest with
      | (a, b) => (c :: a, b)
    else ([], c :: rest)

/-- Split a list at the first occurrence of a character; None when absent. -/
def splitAtFirstChar (c : Char) : List Char → Option (List Char × List Char)
  | [] => none
  | x :: rest =>
    if x == c then some ([], rest)
    else (splitAtFirstChar c rest).map (fun ab => (x :: ab.1, ab.2))

/-- Greedy backtracking for the regex tail ([^\s]+)\): inside the maximal
non-space run, the matched closing parenthesis is the last one, and at
least one character must precede it.  Returns (url body, rest of run). -/
def lastParenSplit (run : List Char) : Option (List Char × List Char) :=
  match splitAtFirstChar ')' run.reverse with
  | some (a, b) => if b.isEmpty then none else some (b.reverse, a.reverse)
  | none => none

/-- The literal https?:\/\/ part of the linkify regex: the scheme of the
captured URL.  https is preferred (greedy ?), then http. -/
def stripHttpScheme (l : List Char) : Option (List Char × List Char) :=
  if listStartsWith "https://".data l then some ("https://".data, l.drop 8)
  else if listStartsWith "http://".data l then some ("http://".data, l.drop 7)
  else none

/-- Try to match \[([^\]]+)\]\((https?:\/\/[^\s]+)\) when the text starts at
an opening bracket; yields (label, url, rest after the match). -/
def tryLinkAt : List Char → Option (List Char × List Char × List Char)
  | '[' :: t =>
    match splitAtFirstChar ']' t with
    | some (label, u) =>
      if label.isEmpty then none
      else
        match u with
        | '(' :: v =>
          match stripHttpScheme v with
          | some (scheme, w) =>
            match takeWhileRun (fun c => !(isJsSpace c)) w with
            | (run, tail2) =>
              match lastParenSplit run with
              | some (body, runTail) => some (label, scheme ++ body, runTail ++ tail2)
              | none => none
          | none => none
        | _ => none
    | none => none
  | _ => none

/-- The first (leftmost) match of the linkify regex in the text, with the
characters before and after it. -/
structure LinkMatch where
  before : List Char
  label : List Char
  url : List Char
  after : List Char
deriving DecidableEq

/-- Scan for the leftmost match of the linkify regex. -/
def linkifyScan : List Char → Option LinkMatch
  | [] => none
  | c :: rest =>
    match tryLinkAt (c :: rest) with
    | some (label, url, after) => some ⟨[], label, url, after⟩
    | none =>
      (linkifyScan rest).map (fun lm => ⟨c :: lm.before, lm.label, lm.url, lm.after⟩)

/-- linkify: when the markdown-link regex matches, the first match is
replaced in place by the anchor tag; otherwise the text is returned
unchanged.  (text.replace(match[0], tag) replaces the first occurrence of
the matched substring, which is where the leftmost match sits.) -/
def linkify (text : String) : String :=
  match linkifyScan text.data with
  | none => text
  | some lm =>
    String.mk lm.before ++ "<a target=\x27_blank\x27 href=\x27" ++ String.mk lm.url ++
    "\x27>" ++ String.mk lm.label ++ "</a>" ++ String.mk lm.after

/-- One character of escapeHTML.  The source chains five global replaces in
the order & < > quote apostrophe; since only the first pass rewrites &, the
chain is the character-wise map. -/
def escapeHtmlChar (c : Char) : String :=
  if c == '&' then "&amp;"
  else if c == '<' then "&lt;"
  else if c == '>' then "&gt;"
  else if c == '\x22' then "&quot;"
  else if c == '\x27' then "&#039;"
  else String.mk [c]

/-- escapeHTML over a whole string. -/
def escapeHTML (s : String) : String :=
  String.join (s.data.map escapeHtmlChar)

/-- outputAuditItem: reads fItem["node"]["selector"] first, so when the node
key is absent the member access on undefined throws a TypeError; otherwise
it renders the selector, the escaped snippet and the explanation. -/
def outputAuditItem (fItem : FItem) : Except String String :=
  match fItem.node with
  | none => .error "TypeError: Cannot read properties of undefined (reading \x27selector\x27)"
  | some node =>
    .ok ("<table class=\x27f-item\x27>"
      ++ "<tr><th>Selector</th><td><pre>" ++ node.selector ++ "</pre></td></tr>"
      ++ "<tr><th>Snippet</th><td><code>" ++ escapeHTML node.snippet ++ "</code></td></tr>"
      ++ "<tr><th>Explanation</th><td>" ++ node.explanation ++ "</td></tr>"
      ++ "</table>")

/-- The inner for loop of outputPageAudits over details.items, appending one
outputAuditItem block per item; a thrown TypeError propagates. -/
def fItemListHtml : List FItem → Except String String
  | [] => .ok ""
  | f :: rest => do
    let a ← outputAuditItem f
    let r ← fItemListHtml rest
    .ok (a ++ r)

/-- The div one audit contributes inside outputPageAudits: id, title,
linkified description, and, only when details is truthy, the Nodes affected
heading followed by the items loop (for..in over an absent items key makes
zero iterations). -/
def auditDivHtml (item : AuditData) : Except String String :=
  let head := "<div id=\x27audit-" ++ item.id ++ "\x27 class=\x27audit-item\x27>"
    ++ "<h4>" ++ item.title ++ "</h4>"
    ++ "<p>" ++ linkify item.description ++ "</p>"
  match item.details with
  | none => .ok (head ++ "</div>")
  | some d =>
    match d.items with
    | none => .ok (head ++ "<h5>Nodes affected</h5>" ++ "</div>")
    | some items =>
      (fItemListHtml items).map (fun s => head ++ "<h5>Nodes affected</h5>" ++ s ++ "</div>")

/-- The for loop of outputPageAudits over one page audits map. -/
def auditListHtml : List (String × AuditData) → Except String String
  | [] => .ok ""
  | (_, item) :: rest => do
    let d ← auditDivHtml item
    let r ← auditListHtml rest
    .ok (d ++ r)

/-- The detail section one page contributes: its anchored h3 heading
followed by the divs of its audits. -/
def pageSectionHtml (page : String) (audits : List (String × AuditData)) :
    Except String String :=
  (auditListHtml audits).map (fun s =>
    "<h3 class=\x27ifpt\x27><a id=\x27" ++ makeAnchorFromPageName page ++ "\x27>" ++
    page ++ "</a></h3>" ++ s)

/-- outputPageAudits: one detail section per page, skipping (continue) every
page whose audits object has zero keys. -/
def outputPageAudits : List (String × List (String × AuditData)) → Except String String
  | [] => .ok ""
  | (page, audits) :: rest =>
    if audits.isEmpty then outputPageAudits rest
    else do
      let s ← pageSectionHtml page audits
      let r ← outputPageAudits rest
      .ok (s ++ r)

/-- The same loop with the empty-page guard removed: a detail section for
every page in the list.  Used to state which pages get a section. -/
def outputPageAuditsEvery : List (String × List (String × AuditData)) → Except String String
  | [] => .ok ""
  | (page, audits) :: rest => do
    let s ← pageSectionHtml page audits
    let r ← outputPageAuditsEvery rest
    .ok (s ++ r)

/-- A concrete raw result for exercising the extraction filter: a failed
binary check, a passed binary check, a notApplicable check with score 0 and
an informative check with score 0. -/
def rawFilterDemo : RawAuditResult :=
  { requestedUrlPath := "/about"
    categories := some { accessibility := some { score := some 1 } }
    audits :=
      [ ("image-alt", { scoreDisplayMode := "binary", score := some 0, id := "image-alt",
                        title := "t1", description := "d1", details := none }),
        ("color-contrast", { scoreDisplayMode := "binary", score := some 1, id := "color-contrast",
                             title := "t2", description := "d2", details := none }),
        ("video-caption", { scoreDisplayMode := "notApplicable", score := some 0, id := "video-caption",
                            title := "t3", description := "d3", details := none }),
        ("doc-lang", { scoreDisplayMode := "informative", score := some 0, id := "doc-lang",
                       title := "t4", description := "d4", details := none }) ] }

/-- The page record rawFilterDemo extracts to. -/
def pdFilterDemo : PageRecord :=
  { path := "/about"
    score := 1
    audits := [ ("image-alt", { scoreDisplayMode := "binary", score := some 0, id := "image-alt",
                                title := "t1", description := "d1", details := none }) ] }

/-- A web holding one sitemap index whose only entry is its own URL. -/
def cycleWeb : String → SitemapDoc := fun u =>
  if u == "https://example.com/sitemap.xml" then
    SitemapDoc.sitemapindex ["https://example.com/sitemap.xml"]
  else SitemapDoc.other

/-- An audit capability that throws on the second page only. -/
def auditFailsOnB : String → Except String Unit := fun s =>
  if s == "https://example.com/b" then .error "navigation timeout" else .ok ()

/-- A web holding one urlset with three pages. -/
def urlsetWebABC : String → SitemapDoc := fun s =>
  if s == "https://example.com/sitemap.xml" then
    SitemapDoc.urlset ["https://example.com/a", "https://example.com/b", "https://example.com/c"]
  else SitemapDoc.other

/-- The filtering predicate simplifies: an audit passes isIncludableInReport
exactly when its display mode is binary and its score is (a present) 0; the
three inequality clauses are subsumed by the equality clause. -/
lemma isIncludableInReport_eq (a : AuditData) :
    isIncludableInReport a = ((a.scoreDisplayMode == "binary") && jsEqZero a.score) := by
  unfold isIncludableInReport
  cases h : a.scoreDisplayMode == "binary" with
  | false => simp [h]
  | true =>
    have hb : a.scoreDisplayMode = "binary" := by rwa [beq_iff_eq] at h
    rw [hb]
    cases jsEqZero a.score <;> rfl

lemma isIncludableInReport_iff (a : AuditData) :
    isIncludableInReport a = true ↔
      (a.scoreDisplayMode = "binary" ∧ a.score = some 0) := by
  rw [isIncludableInReport_eq]
  cases hs : a.score with
  | none => simp [jsEqZero]
  | some q => simp [jsEqZero, beq_iff_eq]

/-- When extraction succeeds, the audits of the record are exactly the
filtered audits of the raw result. -/
lemma extractPageData_ok_audits (raw : RawAuditResult) (pd : PageRecord)
    (h : extractPageData raw = .ok pd) :
    pd.audits = raw.audits.filter (fun kv => isIncludableInReport kv.2) := by
  unfold extractPageData at h
  cases hc : raw.categories with
  | none => simp [hc] at h
  | some cats =>
    simp only [hc] at h
    cases ha : cats.accessibility with
    | none => simp [ha] at h
    | some se =>
      simp only [ha] at h
      have h2 := Except.ok.inj h
      rw [← h2]

/-- C1: after a successful extraction, an audits entry is kept in the page
record exactly when its display mode is binary and its score is 0; an entry
whose display mode is notApplicable, informative or manual is never kept,
whatever its score. -/
theorem claim_C1_failing_check_filter (raw : RawAuditResult) (pd : PageRecord)
    (h : extractPageData raw = .ok pd) (k : String) (a : AuditData) :
    ((k, a) ∈ pd.audits ↔
      ((k, a) ∈ raw.audits ∧ a.scoreDisplayMode = "binary" ∧ a.score = some 0)) ∧
    ((a.scoreDisplayMode = "notApplicable" ∨ a.scoreDisplayMode = "informative" ∨
        a.scoreDisplayMode = "manual") → (k, a) ∉ pd.audits) := by
  have haud := extractPageData_ok_audits raw pd h
  have hmem : (k, a) ∈ pd.audits ↔
      ((k, a) ∈ raw.audits ∧ a.scoreDisplayMode = "binary" ∧ a.score = some 0) := by
    rw [haud, List.mem_filter]
    constructor
    · rintro ⟨hm, hf⟩
      exact ⟨hm, (isIncludableInReport_iff a).mp hf⟩
    · rintro ⟨hm, hb⟩
      exact ⟨hm, (isIncludableInReport_iff a).mpr hb⟩
  refine ⟨hmem, ?_⟩
  rintro hmode hin
  have hb := (hmem.mp hin).2.1
  rcases hmode with hm | hm | hm <;> rw [hm] at hb <;> exact absurd hb (by decide)

/-- Witness for C1: on rawFilterDemo the binary check with score 0 is kept
while the notApplicable check with score 0 is excluded. -/
theorem claim_C1_witness :
    ("image-alt", { scoreDisplayMode := "binary", score := some 0, id := "image-alt",
                    title := "t1", description := "d1", details := none : AuditData })
        ∈ pdFilterDemo.audits ∧
    ("video-caption", { scoreDisplayMode := "notApplicable", score := some 0, id := "video-caption",
                        title := "t3", description := "d3", details := none : AuditData })
        ∉ pdFilterDemo.audits := by
  constructor
  · exact (claim_C1_failing_check_filter rawFilterDemo pdFilterDemo rfl "image-alt" _).1.mpr
      ⟨by decide, rfl, rfl⟩
  · exact (claim_C1_failing_check_filter rawFilterDemo pdFilterDemo rfl "video-caption" _).2
      (Or.inl rfl)

/-- C5: the claim says a raw result without the categories/accessibility
structure yields score 0 and is still counted.  In the source the warning
branch reads the undeclared identifier filename and throws, the caller
catch then skips the file entirely: the page contributes neither a
page_scores entry nor anything to the average.  Here a malformed page plus
one well-formed page of score 1 yields a site average of 1, not 1/2. -/
theorem claim_C5_missing_category_throws :
    extractPageData ⟨"/p", none, []⟩ = .error "ReferenceError: filename is not defined" ∧
    extractPageData ⟨"/p", some ⟨none⟩, []⟩ = .error "ReferenceError: filename is not defined" ∧
    (generateReportData "h"
        [some ⟨"/p", none, []⟩, some ⟨"/g", some ⟨some ⟨some 1⟩⟩, []⟩]
        "2024-07-24T10-34-20").map ReportData.page_scores = some [("/g", 1)] ∧
    (generateReportData "h"
        [some ⟨"/p", none, []⟩, some ⟨"/g", some ⟨some ⟨some 1⟩⟩, []⟩]
        "2024-07-24T10-34-20").map ReportData.site_average = some 1 := by
  refine ⟨rfl, rfl, rfl, ?_⟩
  have h : (generateReportData "h"
      [some ⟨"/p", none, []⟩, some ⟨"/g", some ⟨some ⟨some 1⟩⟩, []⟩]
      "2024-07-24T10-34-20").map ReportData.site_average =
      some ((0 + 1 : ℚ) / ((1 : ℕ) : ℚ)) := rfl
  rw [h]
  norm_num

/-- C9: the claim says every hyphen of the time-of-day part becomes a
colon.  parts[1].replace("-", ":") with a string pattern replaces only the
first hyphen, so the round trip through the run directory name produces
2024-07-24T10:34-20Z, not the standard 2024-07-24T10:34:20Z. -/
theorem claim_C9_replace_first_hyphen_only :
    getReportTimeFromDirectoryPath (getDateBasedDirName ⟨2024, 6, 24, 10, 34, 20⟩) =
      "2024-07-24T10:34-20Z" ∧
    getReportTimeFromDirectoryPath (getDateBasedDirName ⟨2024, 6, 24, 10, 34, 20⟩) ≠
      "2024-07-24T10:34:20Z" := by
  exact ⟨by decide, by decide⟩

/-- C2: the claim says resolution tracks visited sitemap URLs and always
terminates.  processSitemap keeps no visited set and recurses into every
matching entry, so on a self-referencing sitemap index the recursion never
returns: for every recursion depth the computation is still recurring.  -/
theorem claim_C2_cycle_diverges (audit : String → Except String Unit) (fuel : Nat) :
    processSitemap cycleWeb audit fuel "https://example.com/sitemap.xml" = none := by
  induction fuel with
  | zero => simp [processSitemap]
  | succ n ih =>
    have hweb : cycleWeb "https://example.com/sitemap.xml" =
        SitemapDoc.sitemapindex ["https://example.com/sitemap.xml"] := by
      simp [cycleWeb]
    have hguard : (jsIncludes "https://example.com/sitemap.xml" "sitemap" &&
        jsEndsWith "https://example.com/sitemap.xml" ".xml") = true := by decide
    simp [processSitemap, processSitemapIndexLoop, hweb, hguard, ih]

/-- C3: the claim says one failing audit is captured per URL and the
remaining URLs are still processed.  The urlset loop has no try around
runLighthouse: after the pages before the failing one, the exception aborts
the loop (the URLs after it are never audited) and propagates out of
processSitemap, where it ends the whole call as an error. -/
theorem claim_C3_audit_failure_aborts_batch (audit : String → Except String Unit)
    (pre : List String) (u : String) (rest : List String) (e : String)
    (hpre : ∀ p ∈ pre, audit p = .ok ()) (hu : audit u = .error e) :
    runUrlList audit (pre ++ u :: rest) = (pre, some e) ∧
    (∀ (web : String → SitemapDoc) (S : String) (fuel : Nat),
      web S = .urlset (pre ++ u :: rest) →
      processSitemap web audit (fuel + 1) S = some (.error e)) := by
  have h1 : runUrlList audit (pre ++ u :: rest) = (pre, some e) := by
    induction pre with
    | nil => simp [runUrlList, hu]
    | cons p ps ih =>
      have hp : audit p = .ok () := hpre p (List.mem_cons_self p ps)
      have hps : ∀ q ∈ ps, audit q = .ok () :=
        fun q hq => hpre q (List.mem_cons_of_mem p hq)
      simp [runUrlList, hp, ih hps]
  refine ⟨h1, ?_⟩
  intro web S fuel hw
  simp [processSitemap, hw, h1]

/-- Witness for C3: with page b failing, only page a is audited, page c is
never reached, and the whole processSitemap call ends as that error. -/
theorem claim_C3_witness :
    runUrlList auditFailsOnB
        ["https://example.com/a", "https://example.com/b", "https://example.com/c"] =
      (["https://example.com/a"], some "navigation timeout") ∧
    processSitemap urlsetWebABC auditFailsOnB 1 "https://example.com/sitemap.xml" =
      some (.error "navigation timeout") := by
  have h := claim_C3_audit_failure_aborts_batch auditFailsOnB
    ["https://example.com/a"] "https://example.com/b" ["https://example.com/c"]
    "navigation timeout"
    (by intro p hp; rw [List.mem_singleton] at hp; subst hp; rfl)
    rfl
  exact ⟨h.1, h.2 urlsetWebABC "https://example.com/sitemap.xml" 0 rfl⟩

/-- The count and running total of the file loop: every successfully parsed
record adds one to the count and its score to the total. -/
lemma reportLoop_count_total (files : List (Option RawAuditResult)) :
    ∀ (count : Nat) (total : ℚ) (scores : List (String × ℚ))
      (audits : List (String × List (String × AuditData))),
      (reportLoop files count total scores audits).1 =
        count + (parsedRecords files).length ∧
      (reportLoop files count total scores audits).2.1 =
        total + ((parsedRecords files).map PageRecord.score).sum := by
  induction files with
  | nil => intro count total scores audits; simp [reportLoop, parsedRecords]
  | cons f rest ih =>
    intro count total scores audits
    cases hf : parseFile f with
    | ok pd =>
      have h := ih (count + 1) (total + pd.score)
        (jsObjSet scores pd.path pd.score) (jsObjSet audits pd.path pd.audits)
      have hr : reportLoop (f :: rest) count total scores audits =
          reportLoop rest (count + 1) (total + pd.score)
            (jsObjSet scores pd.path pd.score) (jsObjSet audits pd.path pd.audits) := by
        simp [reportLoop, hf]
      have hpr : parsedRecords (f :: rest) = pd :: parsedRecords rest := by
        simp [parsedRecords, List.filterMap_cons, hf, Except.toOption]
      rw [hr, hpr]
      constructor
      · rw [h.1]; simp; omega
      · rw [h.2]; simp; ring
    | error e =>
      have h := ih count total scores audits
      have hr : reportLoop (f :: rest) count total scores audits =
          reportLoop rest count total scores audits := by
        simp [reportLoop, hf]
      have hpr : parsedRecords (f :: rest) = parsedRecords rest := by
        simp [parsedRecords, List.filterMap_cons, hf, Except.toOption]
      rw [hr, hpr]
      exact h

/-- C4: generateReportData returns null exactly when no page record was
read, and otherwise its site average is the plain arithmetic mean of the
parsed page scores. -/
theorem claim_C4_null_iff_empty_and_mean (host : String)
    (files : List (Option RawAuditResult)) (dir : String) :
    (generateReportData host files dir = none ↔ parsedRecords files = []) ∧
    ((generateReportData host files dir).map ReportData.site_average =
      if parsedRecords files = [] then none
      else some (((parsedRecords files).map PageRecord.score).sum /
        ((parsedRecords files).length : ℚ))) := by
  obtain ⟨hc, ht⟩ := reportLoop_count_total files 0 0 [] []
  rw [Nat.zero_add] at hc
  rw [zero_add] at ht
  simp only [generateReportData]
  by_cases hemp : parsedRecords files = []
  · have h0 : (reportLoop files 0 0 [] []).1 = 0 := by rw [hc, hemp]; rfl
    simp [h0, hemp]
  · have hlen : 0 < (parsedRecords files).length := List.length_pos.mpr hemp
    have hpos : (reportLoop files 0 0 [] []).1 > 0 := by rw [hc]; exact hlen
    rw [if_pos hpos]
    simp [hemp, ht, hc]

/-- C10: when two parsed files share one path, the page_scores and
page_audits objects keep only the later file values for that path, while
both files still count toward the total, so the site average is the mean
over files read, which differs from the mean of the stored page_scores
values whenever the two scores differ. -/
theorem claim_C10_duplicate_paths_last_wins (host dir p : String) (s1 s2 : ℚ)
    (a1 a2 : List (String × AuditData)) :
    generateReportData host
        [some ⟨p, some ⟨some ⟨some s1⟩⟩, a1⟩, some ⟨p, some ⟨some ⟨some s2⟩⟩, a2⟩] dir =
      some { host := host
             page_scores := [(p, s2)]
             page_audits := [(p, a2.filter (fun kv => isIncludableInReport kv.2))]
             site_average := (s1 + s2) / 2
             report_datetime := getReportTimeFromDirectoryPath dir } ∧
    (s1 ≠ s2 → (s1 + s2) / 2 ≠ s2) := by
  constructor
  · simp [generateReportData, reportLoop, parseFile, extractPageData, jsObjSet]
  · intro hne hc
    apply hne
    field_simp at hc
    linarith

/-- Witness for C10: scores 1 then 0 for the same path keep 0 in
page_scores while the average over files read is 1/2, which is not 0. -/
theorem claim_C10_witness :
    generateReportData "h"
        [some ⟨"/a", some ⟨some ⟨some 1⟩⟩, []⟩, some ⟨"/a", some ⟨some ⟨some 0⟩⟩, []⟩]
        "2024-07-24T10-34-20" =
      some { host := "h"
             page_scores := [("/a", 0)]
             page_audits := [("/a", List.filter (fun kv => isIncludableInReport kv.2) [])]
             site_average := ((1 : ℚ) + 0) / 2
             report_datetime := getReportTimeFromDirectoryPath "2024-07-24T10-34-20" } ∧
    ((1 : ℚ) + 0) / 2 ≠ 0 := by
  have h := claim_C10_duplicate_paths_last_wins "h" "2024-07-24T10-34-20" "/a" 1 0 [] []
  exact ⟨h.1, h.2 one_ne_zero⟩

/-- C6: with every score at most 1 (the score range of the data model), the
summary table is exactly one row for each page whose score is below 1, in
page order; a page with score 1 contributes no row. -/
theorem claim_C6_summary_rows (ps : List (String × ℚ))
    (h : ∀ kv ∈ ps, kv.2 ≤ 1) :
    outputPageScores ps =
      ((ps.filter (fun kv => decide (kv.2 < 1))).map
        (fun kv => scoreRowHtml kv.1 kv.2)).foldr (· ++ ·) "" := by
  induction ps with
  | nil => rfl
  | cons kv rest ih =>
    obtain ⟨page, score⟩ := kv
    have hrest : ∀ kv ∈ rest, kv.2 ≤ 1 :=
      fun kv hm => h kv (List.mem_cons_of_mem _ hm)
    have hs : score ≤ 1 := h (page, score) (List.mem_cons_self _ _)
    by_cases h1 : score = 1
    · subst h1
      simp [outputPageScores, ih hrest]
    · have hlt : score < 1 := lt_of_le_of_ne hs h1
      simp [outputPageScores, h1, hlt, ih hrest]

/-- Witness for C6: a perfect page and a half-scoring page; the rendered
summary equals the single row of the half-scoring page. -/
theorem claim_C6_witness :
    (∀ kv ∈ [("/a", (1 : ℚ)), ("/b", (1 : ℚ) / 2)], kv.2 ≤ 1) ∧
    outputPageScores [("/a", (1 : ℚ)), ("/b", (1 : ℚ) / 2)] =
      (([("/a", (1 : ℚ)), ("/b", (1 : ℚ) / 2)].filter (fun kv => decide (kv.2 < 1))).map
        (fun kv => scoreRowHtml kv.1 kv.2)).foldr (· ++ ·) "" := by
  have hps : ∀ kv ∈ [("/a", (1 : ℚ)), ("/b", (1 : ℚ) / 2)], kv.2 ≤ 1 := by
    intro kv hkv
    simp only [List.mem_cons, List.mem_singleton] at hkv
    rcases hkv with rfl | rfl | h
    · exact le_refl 1
    · exact one_half_lt_one.le
    · exact absurd h (List.not_mem_nil kv)
  exact ⟨hps, claim_C6_summary_rows _ hps⟩

/-- C7: the rendered detail output equals a render of exactly the pages
whose failing-checks map is nonempty: a page contributes a detail section
(its anchored heading and audit divs, in order) precisely when it has at
least one failing check, independently of its score. -/
theorem claim_C7_detail_sections_iff_nonempty
    (pa : List (String × List (String × AuditData))) :
    outputPageAudits pa =
      outputPageAuditsEvery (pa.filter (fun kv => !kv.2.isEmpty)) := by
  induction pa with
  | nil => rfl
  | cons kv rest ih =>
    obtain ⟨page, audits⟩ := kv
    by_cases he : audits.isEmpty
    · simp [outputPageAudits, he, ih]
    · simp [outputPageAudits, outputPageAuditsEvery, he, ih]

/-- Counterexample to C8 as stated: when the node list is present but one
of its entries has no node object, outputAuditItem reads
fItem["node"]["selector"] on undefined and the renderer throws. -/
theorem claim_C8_counterexample :
    outputPageAudits [("/p",
      [("image-alt",
        { scoreDisplayMode := "binary", score := some 0, id := "image-alt",
          title := "t", description := "d",
          details := some { items := some [{ node := none }] } })])] =
      .error "TypeError: Cannot read properties of undefined (reading \x27selector\x27)" := rfl

/-- C8 amended: the renderer tolerates an absent details field and an
absent node list on every included check (it never throws in those cases);
tolerance does not extend to a present node-list entry without a node. -/
theorem claim_C8_amended_missing_details_ok (item : AuditData)
    (h : item.details = none ∨ ∃ d, item.details = some d ∧ d.items = none) :
    (auditDivHtml item).isOk = true := by
  rcases h with h | ⟨d, hd, hi⟩
  · simp [auditDivHtml, h, Except.isOk, Except.toBool]
  · simp [auditDivHtml, hd, hi, Except.isOk, Except.toBool]

/-- Witness for the amended C8: a check without details renders without
throwing. -/
theorem claim_C8_witness :
    (auditDivHtml { scoreDisplayMode := "binary", score := some 0, id := "image-alt",
                    title := "t", description := "d", details := none }).isOk = true :=
  claim_C8_amended_missing_details_ok _ (Or.inl rfl)
